import Mathlib

/-!
Verification of the SDXL-Turbo text-to-image gallery notebook
(`SDXL_Turbo_T2B.ipynb`).

The notebook defines three functions and a top-level pipeline:

* `process_image(prompt)` — calls the external diffusion pipeline, serializes
  the returned raster image to PNG bytes, base64-encodes them and wraps them
  as `data:image/png;base64,...`;
* `create_html_page_with_images(image_urls)` — concatenates a fixed HTML
  header, one `<img src="..." alt="Generated Image"/>` tag per URL, and the
  footer `</div></body></html>`, writes the document to a fresh temp file and
  returns its path;
* `display_in_browser(html_file_path)` — calls
  `webbrowser.open('file://' + path, new=2)` and returns nothing;
* `__main__` — generates `number_of_images` data URIs in a list
  comprehension, builds the page, opens the browser.

The external diffusion model and the PNG serializer are opaque third-party
code; they are modelled as an oracle that maps the index of the generation
call to either the PNG byte string of the sampled image or a raised error.
PNG bytes are modelled as `List Nat` (each entry a byte value).  The two I/O
side effects (the temp-file write, the browser launch) are modelled as an
explicit list of `Effect` values produced by the run.
-/

namespace SDXL

/-! ## Base64 (model of Python `base64.b64encode` / its inverse) -/

/-- The standard base64 alphabet used by `base64.b64encode`. -/
def b64Alphabet : List Char :=
  "ABCDEFGHIJKLMNOPQRSTUVWXYZabcdefghijklmnopqrstuvwxyz0123456789+/".data

/-- The alphabet character for a 6-bit value. -/
def b64Char (n : Nat) : Char := b64Alphabet.getD n 'A'

/-- Standard base64 encoding of a byte string (bytes as `Nat` values),
with `=` padding, exactly as `base64.b64encode` produces. -/
def b64encode : List Nat → List Char
  | [] => []
  | [a] => [b64Char (a / 4), b64Char (a % 4 * 16), '=', '=']
  | [a, b] => [b64Char (a / 4), b64Char (a % 4 * 16 + b / 16), b64Char (b % 16 * 4), '=']
  | a :: b :: c :: rest =>
      b64Char (a / 4) :: b64Char (a % 4 * 16 + b / 16) ::
      b64Char (b % 16 * 4 + c / 64) :: b64Char (c % 64) :: b64encode rest

/-- Index of a character in the base64 alphabet. -/
def b64Index (c : Char) : Nat := b64Alphabet.indexOf c

/-- Base64 decoding, the inverse of `b64encode` on well-formed input. -/
def b64decode : List Char → List Nat
  | [a, b, '=', '='] => [b64Index a * 4 + b64Index b / 16]
  | [a, b, c, '='] =>
      [b64Index a * 4 + b64Index b / 16, b64Index b % 16 * 16 + b64Index c / 4]
  | a :: b :: c :: d :: rest =>
      (b64Index a * 4 + b64Index b / 16) :: (b64Index b % 16 * 16 + b64Index c / 4) ::
      (b64Index c % 4 * 64 + b64Index d) :: b64decode rest
  | _ => []

theorem b64Char_mem_alphabet (n : Nat) : b64Char n ∈ b64Alphabet := by
  unfold b64Char
  rcases Nat.lt_or_ge n b64Alphabet.length with h | h
  · rw [List.getD_eq_getElem _ _ h]
    exact List.getElem_mem h
  · rw [List.getD_eq_default _ _ h]
    decide

theorem b64Index_b64Char (n : Nat) (h : n < 64) : b64Index (b64Char n) = n := by
  interval_cases n <;> rfl

theorem b64Char_ne_eq (n : Nat) : b64Char n ≠ '=' := by
  have h := b64Char_mem_alphabet n
  intro he
  rw [he] at h
  revert h
  decide

/-- Every character produced by `b64encode` is in the base64 alphabet or is
the padding character. -/
theorem b64encode_chars (bs : List Nat) :
    ∀ c ∈ b64encode bs, c ∈ b64Alphabet ∨ c = '=' := by
  induction bs using b64encode.induct with
  | case1 => intro c hc; simp [b64encode] at hc
  | case2 a =>
      intro c hc
      simp only [b64encode, List.mem_cons, List.not_mem_nil, or_false] at hc
      rcases hc with h | h | h | h
      all_goals first
        | exact Or.inl (h ▸ b64Char_mem_alphabet _)
        | exact Or.inr h
  | case3 a b =>
      intro c hc
      simp only [b64encode, List.mem_cons, List.not_mem_nil, or_false] at hc
      rcases hc with h | h | h | h
      all_goals first
        | exact Or.inl (h ▸ b64Char_mem_alphabet _)
        | exact Or.inr h
  | case4 a b c rest ih =>
      intro x hx
      simp only [b64encode, List.mem_cons] at hx
      rcases hx with h | h | h | h | h
      · exact Or.inl (h ▸ b64Char_mem_alphabet _)
      · exact Or.inl (h ▸ b64Char_mem_alphabet _)
      · exact Or.inl (h ▸ b64Char_mem_alphabet _)
      · exact Or.inl (h ▸ b64Char_mem_alphabet _)
      · exact ih x h

/-- `b64decode` inverts `b64encode` on genuine byte strings. -/
theorem b64decode_b64encode (bs : List Nat) (h : ∀ b ∈ bs, b < 256) :
    b64decode (b64encode bs) = bs := by
  induction bs using b64encode.induct with
  | case1 => rfl
  | case2 a =>
      have ha : a < 256 := h a (by simp)
      simp only [b64encode]
      rw [b64decode.eq_def]
      split
      · rename_i a' b' heq
        simp only [List.cons.injEq, and_true] at heq
        obtain ⟨h1, h2⟩ := heq
        subst h1; subst h2
        rw [b64Index_b64Char _ (by omega), b64Index_b64Char _ (by omega)]
        simp only [List.cons.injEq, and_true]
        omega
      · rename_i hfail heq
        simp only [List.cons.injEq, and_true] at heq
        exact (hfail heq.2.2.symm).elim
      · rename_i hf1 hf2 heq
        simp only [List.cons.injEq] at heq
        exact (hf1 heq.2.2.1.symm heq.2.2.2.1.symm heq.2.2.2.2.symm).elim
      · rename_i hf1 hf2 hf3
        exact (hf1 _ _ rfl).elim
  | case3 a b =>
      have ha : a < 256 := h a (by simp)
      have hb : b < 256 := h b (by simp)
      simp only [b64encode]
      rw [b64decode.eq_def]
      split
      · rename_i a' b' heq
        simp only [List.cons.injEq, and_true] at heq
        exact (b64Char_ne_eq _ heq.2.2).elim
      · rename_i hfail heq
        simp only [List.cons.injEq, and_true] at heq
        obtain ⟨h1, h2, h3⟩ := heq
        subst h1; subst h2; subst h3
        rw [b64Index_b64Char _ (by omega), b64Index_b64Char _ (by omega),
          b64Index_b64Char _ (by omega)]
        simp only [List.cons.injEq, and_true]
        omega
      · rename_i hf1 hf2 heq
        simp only [List.cons.injEq] at heq
        exact (hf2 heq.2.2.2.1.symm heq.2.2.2.2.symm).elim
      · rename_i hf1 hf2 hf3
        exact (hf2 _ _ _ rfl).elim
  | case4 a b c rest ih =>
      have ha : a < 256 := h a (by simp)
      have hb : b < 256 := h b (by simp)
      have hc : c < 256 := h c (by simp)
      have hrest : ∀ x ∈ rest, x < 256 := fun x hx => h x (by simp [hx])
      simp only [b64encode]
      rw [b64decode.eq_def]
      split
      · rename_i a' b' heq
        simp only [List.cons.injEq] at heq
        exact (b64Char_ne_eq _ heq.2.2.1).elim
      · rename_i hfail heq
        simp only [List.cons.injEq] at heq
        exact (b64Char_ne_eq _ heq.2.2.2.1).elim
      · rename_i hf1 hf2 heq
        simp only [List.cons.injEq] at heq
        obtain ⟨h1, h2, h3, h4, h5⟩ := heq
        subst h1; subst h2; subst h3; subst h4; subst h5
        rw [b64Index_b64Char _ (by omega), b64Index_b64Char _ (by omega),
          b64Index_b64Char _ (by omega), b64Index_b64Char _ (by omega), ih hrest]
        simp only [List.cons.injEq, and_true]
        refine ⟨by omega, by omega, by omega⟩
      · rename_i hf1 hf2 hf3
        exact (hf3 _ _ _ _ _ rfl).elim

/-- `b64encode` is injective on byte strings. -/
theorem b64encode_injective (xs ys : List Nat) (hx : ∀ b ∈ xs, b < 256)
    (hy : ∀ b ∈ ys, b < 256) (h : b64encode xs = b64encode ys) : xs = ys := by
  rw [← b64decode_b64encode xs hx, ← b64decode_b64encode ys hy, h]

/-! ## `process_image`

`process_image(prompt)` calls the external pipeline, saves the raster image
to a PNG byte buffer, base64-encodes the buffer and prepends the data-URI
prefix.  The pipeline call and PNG serialization are external; the byte
string they produce is the function's input here. -/

/-- The pure tail of `process_image`: from the PNG bytes of the sampled
image to the returned data URI. -/
def process_image (png : List Nat) : String :=
  "data:image/png;base64," ++ (b64encode png).asString

/-! ## `create_html_page_with_images` -/

/-- The fixed HTML/CSS header of the gallery document, exactly the Python
triple-quoted literal (CSS braces written with hex escapes). -/
def htmlHeader : String :=
  "\n    <!DOCTYPE html>\n    <html lang=\"en\">\n    <head>\n        <meta charset=\"UTF-8\">\n        <title>Generated Images Gallery</title>\n        <style>\n            body \x7b\n                margin: 0;\n                padding: 0;\n                background-color: #f0f0f0;\n                font-family: Arial, sans-serif;\n            \x7d\n            .gallery \x7b\n                display: flex;\n                flex-wrap: wrap;\n                justify-content: center;\n                padding: 20px;\n            \x7d\n            .gallery img \x7b\n                margin: 10px;\n                border: 1px solid #ccc;\n                border-radius: 5px;\n                width: auto;\n                max-width: 300px;\n                height: auto;\n            \x7d\n        </style>\n    </head>\n    <body>\n        <h1 style=\"text-align: center; margin-top: 20px;\">AI Generated Images Gallery</h1>\n        <div class=\"gallery\">\n    "

/-- The footer appended after the image tags. -/
def htmlFooter : String := "</div></body></html>"

/-- One image tag, as produced by the f-string in the loop body. -/
def imgTag (url : String) : String :=
  "<img src=\"" ++ url ++ "\" alt=\"Generated Image\"/>"

/-- The document content built by `create_html_page_with_images`: the header,
then one `<img>` tag per URL appended in order, then the footer. -/
def create_html_content (image_urls : List String) : String :=
  (image_urls.foldl (fun acc url => acc ++ imgTag url) htmlHeader) ++ htmlFooter

/-! ## Observers of the generated document

`imgScan` extracts, in order, the `src` attribute of every
`<img src="...` occurrence; `countImg` counts occurrences of `<img`;
`countDiv` counts occurrences of `<div class="gallery">`. -/

/-- State of the `src`-attribute scanner: `seek k` means the first `k`
characters of the literal `<img src="` have just been matched; `grab acc`
means we are inside a `src` attribute and `acc` holds its characters in
reverse.  All ten marker characters are pairwise distinct, so on a mismatch
the only possible restart is at a fresh `<`. -/
inductive ScanState : Type
  | seek (k : Nat)
  | grab (acc : List Char)

/-- The literal that opens an image tag's `src` attribute. -/
def srcMark : List Char := "<img src=\"".data

/-- Extracts, in order, the contents of the `src="..."` attribute of every
`<img src="...` occurrence in the character stream. -/
def imgScan : ScanState → List Char → List (List Char)
  | _, [] => []
  | .seek k, c :: cs =>
      if c = srcMark.getD k 'X' then
        (if k = 9 then imgScan (.grab []) cs else imgScan (.seek (k + 1)) cs)
      else if c = '<' then imgScan (.seek 1) cs else imgScan (.seek 0) cs
  | .grab acc, c :: cs =>
      if c = '"' then acc.reverse :: imgScan (.seek 0) cs
      else imgScan (.grab (c :: acc)) cs

/-- The literal `<img`. -/
def imgMark : List Char := "<img".data

/-- The literal `<div class="gallery">`. -/
def divMark : List Char := "<div class=\"gallery\">".data

/-- The characters of an image tag after the closing quote of its `src`. -/
def tagClose : List Char := " alt=\"Generated Image\"/>".data

/-- Number of occurrences of the substring `<img`. -/
def countImg : List Char → Nat
  | [] => 0
  | c :: cs => if imgMark.isPrefixOf (c :: cs) then countImg cs + 1 else countImg cs

/-- Number of occurrences of the substring `<div class="gallery">`. -/
def countDiv : List Char → Nat
  | [] => 0
  | c :: cs => if divMark.isPrefixOf (c :: cs) then countDiv cs + 1 else countDiv cs

set_option maxRecDepth 10000 in
theorem imgScan_header (cs : List Char) :
    imgScan (.seek 0) (htmlHeader.data ++ cs) = imgScan (.seek 0) cs := rfl

set_option maxRecDepth 10000 in
theorem countImg_header (cs : List Char) :
    countImg (htmlHeader.data ++ cs) = countImg cs := rfl

set_option maxRecDepth 10000 in
theorem countDiv_header (cs : List Char) :
    countDiv (htmlHeader.data ++ cs) = countDiv cs + 1 := rfl

theorem imgScan_footer : imgScan (.seek 0) htmlFooter.data = [] := rfl

theorem countImg_footer : countImg htmlFooter.data = 0 := rfl

theorem countDiv_footer : countDiv htmlFooter.data = 0 := rfl

theorem imgScan_mark (l : List Char) :
    imgScan (.seek 0) (srcMark ++ l) = imgScan (.grab []) l := rfl

theorem countImg_mark (l : List Char) :
    countImg (srcMark ++ l) = countImg l + 1 := rfl

theorem countDiv_mark (l : List Char) :
    countDiv (srcMark ++ l) = countDiv l := rfl

theorem imgScan_seek_step (c : Char) (h : c ≠ '<') (cs : List Char) :
    imgScan (.seek 0) (c :: cs) = imgScan (.seek 0) cs := by
  have h0 : srcMark.getD 0 'X' = '<' := rfl
  have h1 : srcMark[0]?.getD 'X' = '<' := rfl
  simp [imgScan, h0, h1, h]

theorem imgScan_seek_append (l : List Char) (h : ∀ c ∈ l, c ≠ '<') (cs : List Char) :
    imgScan (.seek 0) (l ++ cs) = imgScan (.seek 0) cs := by
  induction l with
  | nil => rfl
  | cons c l ih =>
      rw [List.cons_append, imgScan_seek_step c (h c (by simp)),
        ih (fun x hx => h x (by simp [hx]))]

theorem imgScan_grab_step (acc : List Char) (c : Char) (h : c ≠ '"') (cs : List Char) :
    imgScan (.grab acc) (c :: cs) = imgScan (.grab (c :: acc)) cs := by
  simp [imgScan, h]

theorem imgScan_grab_append (u : List Char) (h : ∀ c ∈ u, c ≠ '"') (acc cs : List Char) :
    imgScan (.grab acc) (u ++ '"' :: cs) = (acc.reverse ++ u) :: imgScan (.seek 0) cs := by
  induction u generalizing acc with
  | nil => simp [imgScan]
  | cons c u ih =>
      rw [List.cons_append, imgScan_grab_step _ c (h c (by simp)),
        ih (fun x hx => h x (by simp [hx])) (c :: acc)]
      simp

theorem countImg_step (c : Char) (h : c ≠ '<') (cs : List Char) :
    countImg (c :: cs) = countImg cs := by
  have hp : imgMark.isPrefixOf (c :: cs) = false := by
    rw [show imgMark = '<' :: "img".data from rfl, List.isPrefixOf_cons₂]
    simp [Ne.symm h]
  simp [countImg, hp]

theorem countImg_append (l : List Char) (h : ∀ c ∈ l, c ≠ '<') (cs : List Char) :
    countImg (l ++ cs) = countImg cs := by
  induction l with
  | nil => rfl
  | cons c l ih =>
      rw [List.cons_append, countImg_step c (h c (by simp)),
        ih (fun x hx => h x (by simp [hx]))]

theorem countDiv_step (c : Char) (h : c ≠ '<') (cs : List Char) :
    countDiv (c :: cs) = countDiv cs := by
  have hp : divMark.isPrefixOf (c :: cs) = false := by
    rw [show divMark = '<' :: "div class=\"gallery\">".data from rfl, List.isPrefixOf_cons₂]
    simp [Ne.symm h]
  simp [countDiv, hp]

theorem countDiv_append (l : List Char) (h : ∀ c ∈ l, c ≠ '<') (cs : List Char) :
    countDiv (l ++ cs) = countDiv cs := by
  induction l with
  | nil => rfl
  | cons c l ih =>
      rw [List.cons_append, countDiv_step c (h c (by simp)),
        ih (fun x hx => h x (by simp [hx]))]

/-- The characters of one rendered image tag. -/
theorem imgTag_data (u : String) :
    (imgTag u).data = srcMark ++ (u.data ++ '"' :: tagClose) := by
  show ("<img src=\"" ++ u ++ "\" alt=\"Generated Image\"/>").data = _
  rw [String.data_append, String.data_append]
  rw [show ("\" alt=\"Generated Image\"/>" : String).data = '"' :: tagClose from rfl,
    show ("<img src=\"" : String).data = srcMark from rfl, List.append_assoc]

theorem imgScan_tag (u : String) (h : ∀ c ∈ u.data, c ≠ '"') (cs : List Char) :
    imgScan (.seek 0) ((imgTag u).data ++ cs) = u.data :: imgScan (.seek 0) cs := by
  rw [imgTag_data, List.append_assoc, imgScan_mark, List.append_assoc, List.cons_append,
    imgScan_grab_append u.data h [] (tagClose ++ cs),
    imgScan_seek_append tagClose (by decide) cs]
  simp

theorem countImg_tag (u : String) (h : ∀ c ∈ u.data, c ≠ '<') (cs : List Char) :
    countImg ((imgTag u).data ++ cs) = countImg cs + 1 := by
  rw [imgTag_data, List.append_assoc, countImg_mark, List.append_assoc, List.cons_append,
    countImg_append u.data h, countImg_step '"' (by decide),
    countImg_append tagClose (by decide)]

theorem countDiv_tag (u : String) (h : ∀ c ∈ u.data, c ≠ '<') (cs : List Char) :
    countDiv ((imgTag u).data ++ cs) = countDiv cs := by
  rw [imgTag_data, List.append_assoc, countDiv_mark, List.append_assoc, List.cons_append,
    countDiv_append u.data h, countDiv_step '"' (by decide),
    countDiv_append tagClose (by decide)]

/-- The concatenation of the rendered image tags, in input order. -/
def joinTags : List String → String
  | [] => ""
  | u :: us => imgTag u ++ joinTags us

theorem foldl_append_imgTag (urls : List String) (s : String) :
    urls.foldl (fun acc url => acc ++ imgTag url) s = s ++ joinTags urls := by
  induction urls generalizing s with
  | nil => simp [joinTags]
  | cons u us ih =>
      rw [List.foldl_cons, ih, joinTags, ← String.append_assoc]

/-- The document splits into the fixed header, the image tags in order, and
the fixed footer. -/
theorem create_html_content_data (uris : List String) :
    (create_html_content uris).data =
      htmlHeader.data ++ ((joinTags uris).data ++ htmlFooter.data) := by
  unfold create_html_content
  rw [foldl_append_imgTag, String.append_assoc, String.data_append, String.data_append]

theorem imgScan_joinTags (uris : List String)
    (h : ∀ u ∈ uris, ∀ c ∈ u.data, c ≠ '"') (cs : List Char) :
    imgScan (.seek 0) ((joinTags uris).data ++ cs) =
      uris.map String.data ++ imgScan (.seek 0) cs := by
  induction uris with
  | nil => rfl
  | cons u us ih =>
      rw [joinTags, String.data_append, List.append_assoc,
        imgScan_tag u (h u (by simp)) _, ih (fun v hv => h v (by simp [hv]))]
      rfl

theorem countImg_joinTags (uris : List String)
    (h : ∀ u ∈ uris, ∀ c ∈ u.data, c ≠ '<') (cs : List Char) :
    countImg ((joinTags uris).data ++ cs) = countImg cs + uris.length := by
  induction uris with
  | nil => rfl
  | cons u us ih =>
      rw [joinTags, String.data_append, List.append_assoc,
        countImg_tag u (h u (by simp)) _, ih (fun v hv => h v (by simp [hv]))]
      simp [List.length_cons]
      omega

theorem countDiv_joinTags (uris : List String)
    (h : ∀ u ∈ uris, ∀ c ∈ u.data, c ≠ '<') (cs : List Char) :
    countDiv ((joinTags uris).data ++ cs) = countDiv cs := by
  induction uris with
  | nil => rfl
  | cons u us ih =>
      rw [joinTags, String.data_append, List.append_assoc,
        countDiv_tag u (h u (by simp)) _, ih (fun v hv => h v (by simp [hv]))]

/-- Ordered extraction of the `src` attributes of the generated document:
exactly the input URIs, in input order. -/
theorem imgScan_content (uris : List String)
    (h : ∀ u ∈ uris, ∀ c ∈ u.data, c ≠ '"') :
    imgScan (.seek 0) (create_html_content uris).data = uris.map String.data := by
  rw [create_html_content_data, imgScan_header, imgScan_joinTags uris h, imgScan_footer,
    List.append_nil]

/-- The generated document contains exactly one `<img` per input URI. -/
theorem countImg_content (uris : List String)
    (h : ∀ u ∈ uris, ∀ c ∈ u.data, c ≠ '<') :
    countImg (create_html_content uris).data = uris.length := by
  rw [create_html_content_data, countImg_header, countImg_joinTags uris h, countImg_footer]
  omega

/-- The generated document contains exactly one `<div class="gallery">`. -/
theorem countDiv_content (uris : List String)
    (h : ∀ u ∈ uris, ∀ c ∈ u.data, c ≠ '<') :
    countDiv (create_html_content uris).data = 1 := by
  rw [create_html_content_data, countDiv_header, countDiv_joinTags uris h, countDiv_footer]

/-! ## Characters of a produced data URI -/

/-- The fixed data-URI prefix. -/
def dataUriPrefix : String := "data:image/png;base64,"

theorem process_image_data (png : List Nat) :
    (process_image png).data = dataUriPrefix.data ++ b64encode png := rfl

/-- No character of a produced data URI is a quote, `<` or `>`. -/
theorem process_image_no_special (png : List Nat) :
    ∀ c ∈ (process_image png).data, c ≠ '"' ∧ c ≠ '<' ∧ c ≠ '>' := by
  intro c hc
  rw [process_image_data] at hc
  rcases List.mem_append.mp hc with h | h
  · have hp : ∀ x ∈ dataUriPrefix.data, x ≠ '"' ∧ x ≠ '<' ∧ x ≠ '>' := by decide
    exact hp c h
  · rcases b64encode_chars png c h with ha | ha
    · have hb : ∀ x ∈ b64Alphabet, x ≠ '"' ∧ x ≠ '<' ∧ x ≠ '>' := by decide
      exact hb c ha
    · subst ha; decide

/-! ## Side effects and the I/O-performing functions

The two observable side effects of a run are the single temp-file write done
by `create_html_page_with_images` and the single `webbrowser.open` call done
by `display_in_browser`.  `webbrowser.open(url, new=2)` requests the URL be
opened in a new browser tab; its boolean result is discarded by
`display_in_browser`, which returns `None`. -/

inductive Effect : Type
  | writeFile (path : String) (content : String)
  | openBrowser (url : String) (new : Nat)
deriving DecidableEq

/-- `create_html_page_with_images(image_urls)`: builds the document, writes
it once to a fresh temp file (whose OS-chosen name is the `tempName`
argument) and returns that file's path. -/
def create_html_page_with_images (image_urls : List String) (tempName : String) :
    String × List Effect :=
  (tempName, [Effect.writeFile tempName (create_html_content image_urls)])

/-- `display_in_browser(html_file_path)`: opens `file://` plus the verbatim
path in a new browser tab (`new=2`) and returns `None`. -/
def display_in_browser (html_file_path : String) : Unit × List Effect :=
  ((), [Effect.openBrowser ("file://" ++ html_file_path) 2])

/-! ## The `__main__` pipeline

The external sampler is an oracle from the (0-based) index of the generation
call to the PNG bytes of the sampled image, or to a raised error.  The list
comprehension `[process_image(prompt) for _ in range(number_of_images)]`
evaluates the calls sequentially from index 0; a raised error aborts the
whole comprehension. -/

/-- Sequential evaluation of the comprehension, calls `i, i+1, ...` for `k`
iterations. -/
def genURIsFrom (gen : Nat → Except String (List Nat)) : Nat → Nat → Except String (List String)
  | _, 0 => Except.ok []
  | i, k + 1 =>
      match gen i with
      | Except.error e => Except.error e
      | Except.ok png =>
          match genURIsFrom gen (i + 1) k with
          | Except.error e => Except.error e
          | Except.ok rest => Except.ok (process_image png :: rest)

/-- `image_urls = [process_image(prompt) for _ in range(number_of_images)]`. -/
def genImageURIs (gen : Nat → Except String (List Nat)) (number_of_images : Nat) :
    Except String (List String) :=
  genURIsFrom gen 0 number_of_images

/-- The whole `__main__` block: on success returns the produced URI list, the
returned temp path, and the effect trace; a raised error aborts everything. -/
def mainPipeline (gen : Nat → Except String (List Nat)) (number_of_images : Nat)
    (tempName : String) : Except String (List String × String × List Effect) :=
  match genImageURIs gen number_of_images with
  | Except.error e => Except.error e
  | Except.ok image_urls =>
      let r1 := create_html_page_with_images image_urls tempName
      let r2 := display_in_browser r1.1
      Except.ok (image_urls, r1.1, r1.2 ++ r2.2)

/-- The side effects a run actually performs (none when it raises). -/
def pipelineEffects (gen : Nat → Except String (List Nat)) (number_of_images : Nat)
    (tempName : String) : List Effect :=
  match mainPipeline gen number_of_images tempName with
  | Except.ok r => r.2.2
  | Except.error _ => []

/-- When every generation call succeeds, the comprehension returns one data
URI per call, in call order. -/
theorem genURIsFrom_ok (gen : Nat → Except String (List Nat)) (k : Nat) :
    ∀ i : Nat, (∀ j, j < k → ∃ png, gen (i + j) = Except.ok png) →
      ∃ pngs : List (List Nat), pngs.length = k ∧
        genURIsFrom gen i k = Except.ok (pngs.map process_image) := by
  induction k with
  | zero => exact fun i _ => ⟨[], rfl, rfl⟩
  | succ k ih =>
      intro i h
      obtain ⟨p, hp⟩ := h 0 (Nat.succ_pos k)
      rw [Nat.add_zero] at hp
      obtain ⟨pngs, hlen, hrec⟩ := ih (i + 1) (fun j hj => by
        have := h (j + 1) (by omega)
        rwa [show i + (j + 1) = i + 1 + j by omega] at this)
      refine ⟨p :: pngs, by simp [hlen], ?_⟩
      simp [genURIsFrom, hp, hrec]

/-- If some generation call in range raises, the comprehension raises. -/
theorem genURIsFrom_error (gen : Nat → Except String (List Nat)) (k : Nat) :
    ∀ i j : Nat, ∀ e : String, j < k → gen (i + j) = Except.error e →
      ∃ e', genURIsFrom gen i k = Except.error e' := by
  induction k with
  | zero => intro i j e hj _; omega
  | succ k ih =>
      intro i j e hj he
      cases hg : gen i with
      | error e'' => exact ⟨e'', by simp [genURIsFrom, hg]⟩
      | ok p =>
          cases j with
          | zero =>
              rw [Nat.add_zero] at he
              rw [he] at hg
              exact absurd hg (by simp)
          | succ j =>
              obtain ⟨e', he'⟩ := ih (i + 1) j e (by omega)
                (by rwa [show i + 1 + j = i + (j + 1) by omega])
              exact ⟨e', by simp [genURIsFrom, hg, he']⟩

/-! ## Helper observers and facts for the claims -/

/-- Contents of the file writes in an effect trace. -/
def writtenContents (effs : List Effect) : List String :=
  effs.filterMap fun eff =>
    match eff with
    | Effect.writeFile _ content => some content
    | _ => none

/-- The header up to (excluding) the `<div class="gallery">` opening. -/
def headPre : String :=
  "\n    <!DOCTYPE html>\n    <html lang=\"en\">\n    <head>\n        <meta charset=\"UTF-8\">\n        <title>Generated Images Gallery</title>\n        <style>\n            body \x7b\n                margin: 0;\n                padding: 0;\n                background-color: #f0f0f0;\n                font-family: Arial, sans-serif;\n            \x7d\n            .gallery \x7b\n                display: flex;\n                flex-wrap: wrap;\n                justify-content: center;\n                padding: 20px;\n            \x7d\n            .gallery img \x7b\n                margin: 10px;\n                border: 1px solid #ccc;\n                border-radius: 5px;\n                width: auto;\n                max-width: 300px;\n                height: auto;\n            \x7d\n        </style>\n    </head>\n    <body>\n        <h1 style=\"text-align: center; margin-top: 20px;\">AI Generated Images Gallery</h1>\n        "

set_option maxRecDepth 10000 in
theorem htmlHeader_split : htmlHeader.data = headPre.data ++ divMark ++ "\n    ".data := rfl

theorem countImg_htmlHeader : countImg htmlHeader.data = 0 := by
  have h := countImg_header []
  simpa using h

theorem process_image_injective (a b : List Nat) (ha : ∀ x ∈ a, x < 256)
    (hb : ∀ x ∈ b, x < 256) (h : process_image a = process_image b) : a = b := by
  have hd := congrArg String.data h
  rw [process_image_data, process_image_data] at hd
  exact b64encode_injective a b ha hb (List.append_cancel_left hd)

/-! ## The claims -/

/-- Claim C1: for every generation oracle and every image count N, when all N
generation calls succeed the pipeline produces exactly N data URIs, and the
gallery document built from them contains exactly N `<img>` tags whose `src`
attributes are exactly those URIs in generation order. -/
theorem claim1_pipeline_n_images (gen : Nat → Except String (List Nat)) (n : Nat)
    (h : ∀ j, j < n → ∃ png, gen j = Except.ok png) :
    ∃ uris : List String,
      genImageURIs gen n = Except.ok uris ∧ uris.length = n ∧
      countImg (create_html_content uris).data = n ∧
      imgScan (.seek 0) (create_html_content uris).data = uris.map String.data := by
  obtain ⟨pngs, hlen, hok⟩ :=
    genURIsFrom_ok gen n 0 (fun j hj => by simpa using h j hj)
  refine ⟨pngs.map process_image, hok, by simp [hlen], ?_, ?_⟩
  · rw [countImg_content _ (fun u hu c hc => by
      obtain ⟨p, -, rfl⟩ := List.mem_map.mp hu
      exact (process_image_no_special p c hc).2.1)]
    simp [hlen]
  · exact imgScan_content _ (fun u hu c hc => by
      obtain ⟨p, -, rfl⟩ := List.mem_map.mp hu
      exact (process_image_no_special p c hc).1)

theorem claim1_witness :
    ∃ uris : List String,
      genImageURIs (fun _ => Except.ok [0]) 2 = Except.ok uris ∧ uris.length = 2 ∧
      countImg (create_html_content uris).data = 2 ∧
      imgScan (.seek 0) (create_html_content uris).data = uris.map String.data :=
  claim1_pipeline_n_images (fun _ => Except.ok [0]) 2
    (fun _ _ => ⟨[0], rfl⟩)

/-- Claim C2: if any of the N generation calls raises, the run delivers no
partial result: the pipeline terminates with the error, and neither the
temp-file write nor the browser launch happens. -/
theorem claim2_no_partial_result (gen : Nat → Except String (List Nat)) (n : Nat)
    (t : String) (i : Nat) (e : String) (hi : i < n) (he : gen i = Except.error e) :
    (∃ e', mainPipeline gen n t = Except.error e') ∧ pipelineEffects gen n t = [] := by
  obtain ⟨e', he'⟩ := genURIsFrom_error gen n 0 i e hi (by simpa using he)
  have hm : mainPipeline gen n t = Except.error e' := by
    simp [mainPipeline, genImageURIs, he']
  exact ⟨⟨e', hm⟩, by simp [pipelineEffects, hm]⟩

theorem claim2_witness :
    (∃ e', mainPipeline (fun i => if i = 1 then Except.error "gen failed" else Except.ok [0])
        3 "g.html" = Except.error e') ∧
    pipelineEffects (fun i => if i = 1 then Except.error "gen failed" else Except.ok [0])
        3 "g.html" = [] :=
  claim2_no_partial_result _ 3 "g.html" 1 "gen failed" (by decide) rfl

/-- Claim C3: every string `process_image` returns is the data-URI wrapping of
the PNG bytes of the generated image: the exact prefix `data:image/png;base64,`
followed by the base64 encoding of those bytes, which decodes back to them. -/
theorem claim3_data_uri_shape (png : List Nat) (h : ∀ b ∈ png, b < 256) :
    (process_image png).data = dataUriPrefix.data ++ b64encode png ∧
    dataUriPrefix = "data:image/png;base64," ∧
    b64decode (b64encode png) = png :=
  ⟨process_image_data png, rfl, b64decode_b64encode png h⟩

theorem claim3_witness :
    (process_image [137, 80, 78, 71]).data =
      dataUriPrefix.data ++ b64encode [137, 80, 78, 71] ∧
    dataUriPrefix = "data:image/png;base64," ∧
    b64decode (b64encode [137, 80, 78, 71]) = [137, 80, 78, 71] :=
  claim3_data_uri_shape [137, 80, 78, 71] (by decide)

/-- Claim C4: the gallery builder is deterministic in its document content:
two invocations on the same URI list write byte-identical HTML content; only
the returned temp-file path differs with the OS-chosen name. -/
theorem claim4_builder_deterministic (uris : List String) (t1 t2 : String) :
    writtenContents (create_html_page_with_images uris t1).2 = [create_html_content uris] ∧
    writtenContents (create_html_page_with_images uris t2).2 = [create_html_content uris] ∧
    (create_html_page_with_images uris t1).1 = t1 ∧
    (create_html_page_with_images uris t2).1 = t2 :=
  ⟨rfl, rfl, rfl, rfl⟩

/-- Claim C5: for every input list of data URIs the document contains exactly
one `<div class="gallery">`; the `<img>` elements all sit after that opening
(none occurs in the part of the template before it, none after the footer
begins), and their `src` attributes are the input URIs verbatim, in order. -/
theorem claim5_gallery_structure (uris : List String)
    (h : ∀ u ∈ uris, ∀ c ∈ u.data, c ≠ '"' ∧ c ≠ '<') :
    countDiv (create_html_content uris).data = 1 ∧
    imgScan (.seek 0) (create_html_content uris).data = uris.map String.data ∧
    countImg (create_html_content uris).data = uris.length ∧
    (create_html_content uris).data =
      headPre.data ++ (divMark ++ ("\n    ".data ++ ((joinTags uris).data ++ htmlFooter.data))) ∧
    countImg htmlHeader.data = 0 ∧ countImg htmlFooter.data = 0 := by
  refine ⟨countDiv_content uris (fun u hu c hc => (h u hu c hc).2),
    imgScan_content uris (fun u hu c hc => (h u hu c hc).1),
    countImg_content uris (fun u hu c hc => (h u hu c hc).2), ?_,
    countImg_htmlHeader, countImg_footer⟩
  rw [create_html_content_data, htmlHeader_split]
  simp [List.append_assoc]

theorem claim5_witness :
    countDiv (create_html_content ["data:image/png;base64,QUJD"]).data = 1 ∧
    imgScan (.seek 0) (create_html_content ["data:image/png;base64,QUJD"]).data =
      ["data:image/png;base64,QUJD"].map String.data ∧
    countImg (create_html_content ["data:image/png;base64,QUJD"]).data =
      ["data:image/png;base64,QUJD"].length ∧
    (create_html_content ["data:image/png;base64,QUJD"]).data =
      headPre.data ++ (divMark ++ ("\n    ".data ++
        ((joinTags ["data:image/png;base64,QUJD"]).data ++ htmlFooter.data))) ∧
    countImg htmlHeader.data = 0 ∧ countImg htmlFooter.data = 0 :=
  claim5_gallery_structure ["data:image/png;base64,QUJD"] (by decide)

/-- Claim C6: on the empty URI list the builder does not fail: it returns the
temp path and writes a document with exactly one, empty, gallery container and
zero `<img>` tags. -/
theorem claim6_empty_list (t : String) :
    create_html_page_with_images [] t = (t, [Effect.writeFile t (create_html_content [])]) ∧
    countImg (create_html_content []).data = 0 ∧
    countDiv (create_html_content []).data = 1 ∧
    imgScan (.seek 0) (create_html_content []).data = [] := by
  refine ⟨rfl, ?_, countDiv_content [] (by simp), ?_⟩
  · have h := countImg_content [] (by simp)
    simpa using h
  · have h := imgScan_content [] (by simp)
    simpa using h

/-- Claim C7: a produced data URI is the fixed prefix followed only by base64
alphabet characters or padding; in particular it contains no quote, `<` or
`>`, so interpolating it into the `src="..."` attribute cannot close the
attribute or open a new tag. -/
theorem claim7_uri_alphabet (png : List Nat) :
    (process_image png).data = dataUriPrefix.data ++ b64encode png ∧
    (∀ c ∈ b64encode png, c ∈ b64Alphabet ∨ c = '=') ∧
    (∀ c ∈ (process_image png).data, c ≠ '"' ∧ c ≠ '<' ∧ c ≠ '>') :=
  ⟨process_image_data png, b64encode_chars png, process_image_no_special png⟩

/-- Claim C8: no caching: each call hits the sampler afresh, and whenever the
three sampled images of the N = 3 run differ pairwise, the three produced
data URIs differ pairwise. -/
theorem claim8_distinct_uris (gen : Nat → Except String (List Nat)) (p0 p1 p2 : List Nat)
    (h0 : gen 0 = Except.ok p0) (h1 : gen 1 = Except.ok p1) (h2 : gen 2 = Except.ok p2)
    (hb : ∀ b ∈ p0 ++ p1 ++ p2, b < 256)
    (hd : p0 ≠ p1 ∧ p0 ≠ p2 ∧ p1 ≠ p2) :
    genImageURIs gen 3 =
      Except.ok [process_image p0, process_image p1, process_image p2] ∧
    process_image p0 ≠ process_image p1 ∧ process_image p0 ≠ process_image p2 ∧
    process_image p1 ≠ process_image p2 := by
  have hb0 : ∀ x ∈ p0, x < 256 := fun x hx => hb x (by simp [hx])
  have hb1 : ∀ x ∈ p1, x < 256 := fun x hx => hb x (by simp [hx])
  have hb2 : ∀ x ∈ p2, x < 256 := fun x hx => hb x (by simp [hx])
  refine ⟨?_, ?_, ?_, ?_⟩
  · simp [genImageURIs, genURIsFrom, h0, h1, h2]
  · exact fun he => hd.1 (process_image_injective p0 p1 hb0 hb1 he)
  · exact fun he => hd.2.1 (process_image_injective p0 p2 hb0 hb2 he)
  · exact fun he => hd.2.2 (process_image_injective p1 p2 hb1 hb2 he)

theorem claim8_witness :
    genImageURIs (fun i => Except.ok [i]) 3 =
      Except.ok [process_image [0], process_image [1], process_image [2]] ∧
    process_image [0] ≠ process_image [1] ∧ process_image [0] ≠ process_image [2] ∧
    process_image [1] ≠ process_image [2] :=
  claim8_distinct_uris (fun i => Except.ok [i]) [0] [1] [2] rfl rfl rfl (by decide)
    (by decide)

/-- Claim C9: `display_in_browser` opens the `file://` URL formed from its
path argument, requesting a new browser tab (`new=2`), and returns no success
status (its result carries no information). -/
theorem claim9_browser_launch (p : String) :
    display_in_browser p = ((), [Effect.openBrowser ("file://" ++ p) 2]) ∧
    (display_in_browser p).1 = () ∧
    ("file://" ++ p).data = "file://".data ++ p.data :=
  ⟨rfl, rfl, rfl⟩

/-- Claim C10: `display_in_browser` neither validates nor transforms its
argument: the opened URL is the verbatim concatenation of `file://` and the
path — character for character, with nothing encoded, checked or dropped. -/
theorem claim10_verbatim_url (p : String) :
    (display_in_browser p).2 = [Effect.openBrowser ("file://" ++ p) 2] ∧
    ("file://" ++ p).data =
      'f' :: 'i' :: 'l' :: 'e' :: ':' :: '/' :: '/' :: p.data ∧
    List.drop 7 ("file://" ++ p).data = p.data ∧
    ("file://" ++ p).data.length = p.data.length + 7 := by
  refine ⟨rfl, rfl, rfl, ?_⟩
  rw [String.data_append]
  simp [List.length_append]

end SDXL
